import Mathlib

/-!
Verification development for the AMP Real-Time-Config (RTC) callout
dispatcher (`extensions/amp-a4a/0.1/real-time-config-manager.js` with the
vendor registry from `callout-vendors.js`).

The JavaScript is shallowly embedded: JSON values become an inductive type,
the imperative builder pass (`maybeExecuteRealTimeConfig_` /
`inflateAndSendRtc_`) becomes explicit state passing over the `seenUrls`
list, and the promise chain of `sendRtcCallout_` becomes a total function
over an explicit transport outcome, with promise rejection modelled by
`Except`.  External collaborators that are not part of the analysed sources
(`tryParseJson` / `JSON.parse`, `parseInt`, `isSecureUrl`, `expandSync`)
are modelled from the specification; each such definition carries a doc
comment saying so.
-/

/-- JavaScript/JSON value, as produced by `JSON.parse`.  Numbers are
modelled as integers (all numeric values appearing in the analysed
behaviours are integral); object fields are an association list in
insertion order with unique keys, matching `JSON.parse` output. -/
inductive JsonValue where
  | null : JsonValue
  | bool (b : Bool) : JsonValue
  | num (n : Int) : JsonValue
  | str (s : String) : JsonValue
  | arr (xs : List JsonValue) : JsonValue
  | obj (fields : List (String × JsonValue)) : JsonValue

/-- JavaScript truthiness of a JSON value (`null`, `false`, `0` and the
empty string are falsy; arrays and objects are always truthy). -/
def truthy : JsonValue → Bool
  | JsonValue.null => false
  | JsonValue.bool b => b
  | JsonValue.num n => !(n == 0)
  | JsonValue.str s => !(s == "")
  | JsonValue.arr _ => true
  | JsonValue.obj _ => true

/-- Embedding of `isObject` from `src/types.js`: true exactly for plain
objects (not arrays, not primitives). -/
def isObjectJs : JsonValue → Bool
  | JsonValue.obj _ => true
  | _ => false

/-- Embedding of `isArray` from `src/types.js`. -/
def isArrayJs : JsonValue → Bool
  | JsonValue.arr _ => true
  | _ => false

/-- First-match lookup in an object's field list (JS property access on the
parse result, whose keys are unique). -/
def lookupField : List (String × JsonValue) → String → Option JsonValue
  | [], _ => none
  | kv :: rest, k => if kv.1 = k then some kv.2 else lookupField rest k

/-- JavaScript property read `v[k]`: `undefined` (here `none`) when the
value is not an object or the key is missing. -/
def objGet : JsonValue → String → Option JsonValue
  | JsonValue.obj fields, k => lookupField fields k
  | _, _ => none

/-- Truthiness of a possibly-`undefined` JavaScript value. -/
def optTruthy : Option JsonValue → Bool
  | none => false
  | some v => truthy v

/-- Key-presence test on a JSON object. -/
def hasField (v : JsonValue) (k : String) : Bool :=
  (objGet v k).isSome

/-- JavaScript property assignment `v[k] = x` on an object: overwrites the
existing key in place, otherwise appends.  Non-objects are unchanged. -/
def insertField (fields : List (String × JsonValue)) (k : String) (v : JsonValue) :
    List (String × JsonValue) :=
  if fields.any (fun kv => kv.1 == k) then
    fields.map (fun kv => if kv.1 = k then (k, v) else kv)
  else fields ++ [(k, v)]

/-- Assignment `target[k] = v` at the `JsonValue` level. -/
def setField : JsonValue → String → JsonValue → JsonValue
  | JsonValue.obj fields, k, v => JsonValue.obj (insertField fields k v)
  | w, _, _ => w

/-- Opening brace character, named so that no brace appears in a literal. -/
def lBrace : Char := Char.ofNat 123

/-- Closing brace character. -/
def rBrace : Char := Char.ofNat 125

/-- JSON whitespace skipping. -/
def skipWs : List Char → List Char
  | c :: cs =>
    if c = ' ' ∨ c = '\t' ∨ c = '\n' ∨ c = '\r' then skipWs cs else c :: cs
  | [] => []

/-- Accumulating decimal-digit reader; stops at the first non-digit. -/
def digitsAcc (acc : Nat) : List Char → Nat × List Char
  | c :: cs =>
    if c.isDigit then digitsAcc (acc * 10 + (c.toNat - 48)) cs else (acc, c :: cs)
  | [] => (acc, [])

/-- Head-is-digit test. -/
def headIsDigit : List Char → Bool
  | c :: _ => c.isDigit
  | [] => false

/-- String-literal body reader: consumes up to the closing quote.  Escape
sequences are not modelled (a backslash fails the parse); no analysed
behaviour involves them. -/
def readStringLit : List Char → Option (String × List Char)
  | [] => none
  | c :: cs =>
    if c = '"' then some ("", cs)
    else if c = '\\' then none
    else
      match readStringLit cs with
      | some (s, rest) => some (String.mk (c :: s.data), rest)
      | none => none

mutual

/-- Recursive-descent JSON value parser (fuel-bounded).  Returns the value
and the unconsumed input. -/
def parseJsonVal : Nat → List Char → Option (JsonValue × List Char)
  | 0, _ => none
  | Nat.succ fuel, cs0 =>
    match skipWs cs0 with
    | [] => none
    | c :: cs =>
      if c = '"' then
        match readStringLit cs with
        | some (s, rest) => some (JsonValue.str s, rest)
        | none => none
      else if c = lBrace then
        match skipWs cs with
        | d :: ds =>
          if d = rBrace then some (JsonValue.obj [], ds)
          else parseObjFields fuel (d :: ds) []
        | [] => none
      else if c = '[' then
        match skipWs cs with
        | d :: ds =>
          if d = ']' then some (JsonValue.arr [], ds)
          else parseArrElems fuel (d :: ds) []
        | [] => none
      else if c = '-' then
        if headIsDigit cs then
          match digitsAcc 0 cs with
          | (n, rest) => some (JsonValue.num (-(n : Int)), rest)
        else none
      else if c.isDigit then
        match digitsAcc 0 (c :: cs) with
        | (n, rest) => some (JsonValue.num (n : Int), rest)
      else
        match c :: cs with
        | 'n' :: 'u' :: 'l' :: 'l' :: rest => some (JsonValue.null, rest)
        | 't' :: 'r' :: 'u' :: 'e' :: rest => some (JsonValue.bool true, rest)
        | 'f' :: 'a' :: 'l' :: 's' :: 'e' :: rest => some (JsonValue.bool false, rest)
        | _ => none

/-- Object-field list parser; expects a quoted key next. -/
def parseObjFields (fuel : Nat) (cs : List Char) (acc : List (String × JsonValue)) :
    Option (JsonValue × List Char) :=
  match fuel with
  | 0 => none
  | Nat.succ fuel =>
    match skipWs cs with
    | c :: cs1 =>
      if c = '"' then
        match readStringLit cs1 with
        | some (k, cs2) =>
          match skipWs cs2 with
          | ':' :: cs3 =>
            match parseJsonVal fuel cs3 with
            | some (v, cs4) =>
              let acc1 := insertField acc k v
              match skipWs cs4 with
              | ',' :: cs5 => parseObjFields fuel cs5 acc1
              | d :: cs5 => if d = rBrace then some (JsonValue.obj acc1, cs5) else none
              | [] => none
            | none => none
          | _ => none
        | none => none
      else none
    | [] => none

/-- Array-element list parser; expects a value next. -/
def parseArrElems (fuel : Nat) (cs : List Char) (acc : List JsonValue) :
    Option (JsonValue × List Char) :=
  match fuel with
  | 0 => none
  | Nat.succ fuel =>
    match parseJsonVal fuel cs with
    | some (v, cs1) =>
      match skipWs cs1 with
      | ',' :: cs2 => parseArrElems fuel cs2 (acc ++ [v])
      | ']' :: cs2 => some (JsonValue.arr (acc ++ [v]), cs2)
      | _ => none
    | none => none

end

/-- Modelled from the spec: `tryParseJson` from `src/json.js` (not among the
analysed sources) wraps `JSON.parse` in a try/catch and returns `undefined`
(here `none`) on any parse failure.  The grammar is standard JSON restricted
to integral numerals and escape-free strings, which covers every response
body and configuration this development evaluates. -/
def tryParseJson (s : String) : Option JsonValue :=
  match parseJsonVal (s.data.length + 1) s.data with
  | some (v, rest) => if skipWs rest = [] then some v else none
  | none => none

/-- Truthiness of a `tryParseJson` result (`undefined` is falsy). -/
def jsTruthyOpt : Option JsonValue → Bool
  | none => false
  | some v => truthy v

example : tryParseJson "\x7b\x7d" = some (JsonValue.obj []) := rfl
example : tryParseJson "0" = some (JsonValue.num 0) := rfl
example : tryParseJson "" = none := rfl
example : tryParseJson "null" = some JsonValue.null := rfl
example : tryParseJson "\x7b\"a\":[1,-2,\"x\"]\x7d" =
    some (JsonValue.obj [("a", JsonValue.arr
      [JsonValue.num 1, JsonValue.num (-2), JsonValue.str "x"])]) := rfl

/-- Modelled from the spec/JS semantics: `parseInt(x, 10)` as applied to a
possibly-absent JSON field.  An absent field is `parseInt(undefined)`,
which is `NaN` (`none`); a number is returned as is (all config numbers in
scope are integral); a string is read as optional sign plus a decimal-digit
prefix after leading whitespace, `NaN` when no digit is found; other values
coerce to strings that yield `NaN` (the exotic array-coercion corner of
`parseInt` is outside every analysed behaviour). -/
def jsParseInt : Option JsonValue → Option Int
  | none => none
  | some (JsonValue.num n) => some n
  | some (JsonValue.str s) =>
    match skipWs s.data with
    | '-' :: rest =>
      if headIsDigit rest then some (-(((digitsAcc 0 rest).1 : Int))) else none
    | '+' :: rest =>
      if headIsDigit rest then some (((digitsAcc 0 rest).1 : Int)) else none
    | rest =>
      if headIsDigit rest then some (((digitsAcc 0 rest).1 : Int)) else none
  | some _ => none

/-- Embedding of `RTC_ERROR_ENUM` from `real-time-config-manager.js`. -/
inductive RTC_ERROR_ENUM where
  | MALFORMED_JSON_RESPONSE : RTC_ERROR_ENUM
  | DUPLICATE_URL : RTC_ERROR_ENUM
  | INSECURE_URL : RTC_ERROR_ENUM
  | MAX_CALLOUTS_EXCEEDED : RTC_ERROR_ENUM
  | NETWORK_FAILURE : RTC_ERROR_ENUM
  | UNKNOWN_VENDOR : RTC_ERROR_ENUM
deriving DecidableEq, Repr

/-- Embedding of `rtcResponseDef`: the uniform per-callout response record.
Absent JS fields are `none`. -/
structure RtcResponse where
  callout : String
  rtcTime : Nat
  rtcResponse : Option JsonValue
  error : Option RTC_ERROR_ENUM

/-- Embedding of `MAX_RTC_CALLOUTS`. -/
def MAX_RTC_CALLOUTS : Nat := 5

/-- Embedding of `buildErrorResponse_` (the resolved record it wraps);
`opt_rtcTime || 0` is passed explicitly as `rtcTime`. -/
def buildErrorResponse_ (error : RTC_ERROR_ENUM) (callout : String) (rtcTime : Nat) :
    RtcResponse :=
  { callout := callout, rtcTime := rtcTime, rtcResponse := none, error := some error }

/-- ASCII lowercasing of one character, modelling
`String.prototype.toLowerCase` on the vendor names in scope. -/
def charToLower (c : Char) : Char :=
  if 65 ≤ c.toNat ∧ c.toNat ≤ 90 then Char.ofNat (c.toNat + 32) else c

/-- Modelled from the spec/JS semantics: `vendor.toLowerCase()` (ASCII). -/
def jsToLower (s : String) : String :=
  String.mk (s.data.map charToLower)

/-- Modelled from the spec: the secure-URL collaborator check
(`isSecureUrl` from `src/url.js`, not among the analysed sources) accepts
`https` URLs; the localhost allowance it also grants is irrelevant to every
claim and omitted. -/
def isSecureUrl (url : String) : Bool :=
  List.isPrefixOf "https:".data url.data

/-- First-match lookup in a string-valued macro map. -/
def lookupA : List (String × String) → String → Option String
  | [], _ => none
  | kv :: rest, k => if kv.1 = k then some kv.2 else lookupA rest k

/-- Key list of a macro map. -/
def keysOf (l : List (String × String)) : List String :=
  l.map Prod.fst

/-- All-occurrence substring replacement on character lists, fuel-bounded by
the input length. -/
def replaceChars (pat rep : List Char) : Nat → List Char → List Char
  | _, [] => []
  | 0, s => s
  | Nat.succ fuel, c :: rest =>
    if pat ≠ [] ∧ pat.isPrefixOf (c :: rest) then
      rep ++ replaceChars pat rep fuel ((c :: rest).drop pat.length)
    else c :: replaceChars pat rep fuel rest

/-- String-level replacement of every occurrence of a non-empty pattern. -/
def jsReplaceAll (s pat rep : String) : String :=
  String.mk (replaceChars pat.data rep.data s.data.length s.data)

/-- Modelled from the spec: the URL Macro Expander collaborator
(`urlReplacements.expandSync(url, macros, undefined, whitelist)`, from
`src/service/url-replacements-impl.js`, not among the analysed sources):
each allow-listed macro name occurring in the template is replaced by its
value; everything else is left untouched. -/
def expandSync (url : String) (macroMap : List (String × String))
    (whitelist : List String) : String :=
  macroMap.foldl
    (fun u kv => if whitelist.contains kv.1 then jsReplaceAll u kv.1 kv.2 else u)
    url

/-- Whitelist built by `inflateAndSendRtc_` (lines 126-127): exactly the
keys of the macro map handed to the expander. -/
def inflateWhitelist (macroMap : List (String × String)) : List String :=
  keysOf macroMap

/-- Embedding of `Object.assign(target, source)` on string-valued macro
maps (line 94): source entries overwrite target entries with the same key
in place; fresh source keys are appended in source order. -/
def objectAssign (target source : List (String × String)) :
    List (String × String) :=
  (target.map fun kv =>
    match lookupA source kv.1 with
    | some v => (kv.1, v)
    | none => kv) ++
  source.filter (fun kv => !((keysOf target).contains kv.1))

/-- Embedding of `RTC_VENDORS` from `callout-vendors.js`. -/
def RTC_VENDORS : List (String × String) :=
  [("fakevendor",
    "https://www.fake.qqq/?slot_id=SLOT_ID&page_id=PAGE_ID&foo_id=FOO_ID")]

/-- Registry read `RTC_VENDORS[vendor.toLowerCase()]`. -/
def vendorLookup (name : String) : Option String :=
  lookupA RTC_VENDORS name

/-- JavaScript falsiness of the registry read (`!url`): absent or empty. -/
def jsFalsyUrl : Option String → Bool
  | none => true
  | some s => s == ""

/-- Embedding of the JS expression `opt_vendor || url` (an empty-string
vendor label falls through to the URL). -/
def jsOr (optVendor : Option String) (url : String) : String :=
  match optVendor with
  | some v => if v = "" then url else v
  | none => url

example : jsToLower "fAkeVeNdOR" = "fakevendor" := rfl
example : jsParseInt (some (JsonValue.str " 123abc")) = some 123 := rfl
example : jsParseInt (some (JsonValue.str "abc")) = none := rfl
example : jsParseInt none = none := rfl
example : expandSync "https://a.com/?x=SLOT_ID" [("SLOT_ID", "3")] ["SLOT_ID"] =
    "https://a.com/?x=3" := rfl

/-- One entry of `promiseArray` at the end of the synchronous builder pass:
either an already-resolved error record pushed by
`logAndAddErrorResponse_`, or a dispatched callout (expanded URL plus
callout label) whose promise is still pending. -/
inductive Pending where
  | errorNow (resp : RtcResponse) : Pending
  | callout (url : String) (label : String) : Pending

/-- Embedding of `inflateAndSendRtc_` (lines 114-142): cap check on the
size of `seenUrls` first (against the pre-expansion URL label), then macro
expansion with the macro keys as whitelist, then the secure-URL check, then
the duplicate check, and finally acceptance, which registers the expanded
URL in `seenUrls`.  The `macros && Object.keys(macros)` guard always takes
the expansion branch for an object argument (`Object.keys` returns a truthy
array), and expansion with an empty map is the identity, so the map is
passed unconditionally.  Returns the updated `seenUrls` and the single
entry pushed onto `promiseArray`. -/
def inflateAndSendRtc_ (url : String) (seen : List String)
    (macroMap : List (String × String)) (optVendor : Option String) :
    List String × Pending :=
  if seen.length = MAX_RTC_CALLOUTS then
    (seen, Pending.errorNow
      (buildErrorResponse_ RTC_ERROR_ENUM.MAX_CALLOUTS_EXCEEDED (jsOr optVendor url) 0))
  else if !(isSecureUrl (expandSync url macroMap (inflateWhitelist macroMap))) then
    (seen, Pending.errorNow
      (buildErrorResponse_ RTC_ERROR_ENUM.INSECURE_URL
        (jsOr optVendor (expandSync url macroMap (inflateWhitelist macroMap))) 0))
  else if seen.contains (expandSync url macroMap (inflateWhitelist macroMap)) then
    (seen, Pending.errorNow
      (buildErrorResponse_ RTC_ERROR_ENUM.DUPLICATE_URL
        (jsOr optVendor (expandSync url macroMap (inflateWhitelist macroMap))) 0))
  else
    (seen ++ [expandSync url macroMap (inflateWhitelist macroMap)],
     Pending.callout (expandSync url macroMap (inflateWhitelist macroMap))
       (jsOr optVendor (expandSync url macroMap (inflateWhitelist macroMap))))

/-- One candidate of the builder pass: a publisher URL (processed first, in
array order) or a vendor entry (name and its declared macro map, processed
second, in the iteration order of the `vendors` mapping). -/
inductive Candidate where
  | url (u : String) : Candidate
  | vendor (name : String) (macroMap : List (String × String)) : Candidate

/-- Embedding of one iteration of the two `forEach` loops of
`maybeExecuteRealTimeConfig_` (lines 80-99): publisher URLs go straight to
`inflateAndSendRtc_` with the ad-network macros; vendor entries first
resolve the registry template (emitting `UNKNOWN_VENDOR` with the
original-case name if the read is falsy) and otherwise merge
`Object.assign(vendorMacros, customMacros)` and call `inflateAndSendRtc_`
with the lowercased vendor name as label. -/
def processCandidate (customMacros : List (String × String)) (seen : List String) :
    Candidate → List String × Pending
  | Candidate.url u => inflateAndSendRtc_ u seen customMacros none
  | Candidate.vendor name vendorMacros =>
    match vendorLookup (jsToLower name) with
    | none =>
      (seen, Pending.errorNow (buildErrorResponse_ RTC_ERROR_ENUM.UNKNOWN_VENDOR name 0))
    | some url =>
      if url = "" then
        (seen, Pending.errorNow (buildErrorResponse_ RTC_ERROR_ENUM.UNKNOWN_VENDOR name 0))
      else
        inflateAndSendRtc_ url seen (objectAssign vendorMacros customMacros)
          (some (jsToLower name))

/-- Sequential builder pass over all candidates, threading `seenUrls` and
collecting the `promiseArray` entries in order. -/
def processCandidates (customMacros : List (String × String)) :
    List Candidate → List String → List String × List Pending
  | [], seen => (seen, [])
  | c :: cs, seen =>
    let sp := processCandidate customMacros seen c
    let rest := processCandidates customMacros cs sp.1
    (rest.1, sp.2 :: rest.2)

/-- Validated RTC configuration as consumed by the builder pass: publisher
URLs in array order, vendor entries in mapping-iteration order (each with
its macro map), and the validated timeout. -/
structure RtcConfig where
  urls : List String
  vendors : List (String × List (String × String))
  timeoutMillis : Int

/-- Candidate sequence of a config: publisher URLs first, vendors second,
matching the order of the two `forEach` loops. -/
def candidatesOf (cfg : RtcConfig) : List Candidate :=
  cfg.urls.map Candidate.url ++ cfg.vendors.map (fun nv => Candidate.vendor nv.1 nv.2)

/-- Entries pushed onto `promiseArray` for a candidate list, starting from
an empty `seenUrls`. -/
def pendingsOf (customMacros : List (String × String)) (cs : List Candidate) :
    List Pending :=
  (processCandidates customMacros cs []).2

/-- Final `seenUrls` after a candidate list, starting from empty. -/
def seenAfter (customMacros : List (String × String)) (cs : List Candidate) :
    List String :=
  (processCandidates customMacros cs []).1

/-- URLs of the dispatched (accepted) callouts among the pending entries. -/
def calloutUrls : List Pending → List String
  | [] => []
  | Pending.callout u _ :: ps => u :: calloutUrls ps
  | Pending.errorNow _ :: ps => calloutUrls ps

/-- Number of network requests actually dispatched. -/
def dispatchCount (ps : List Pending) : Nat :=
  (calloutUrls ps).length

/-- Modelled from the spec: the builder step without the callout cap, the
counterfactual defining how many callouts a candidate list "would yield"
(the overflow hypothesis of the cap property).  Identical to
`inflateAndSendRtc_` with the cap branch removed. -/
def inflateNoCap (url : String) (seen : List String)
    (macroMap : List (String × String)) (optVendor : Option String) :
    List String × Pending :=
  if !(isSecureUrl (expandSync url macroMap (inflateWhitelist macroMap))) then
    (seen, Pending.errorNow
      (buildErrorResponse_ RTC_ERROR_ENUM.INSECURE_URL
        (jsOr optVendor (expandSync url macroMap (inflateWhitelist macroMap))) 0))
  else if seen.contains (expandSync url macroMap (inflateWhitelist macroMap)) then
    (seen, Pending.errorNow
      (buildErrorResponse_ RTC_ERROR_ENUM.DUPLICATE_URL
        (jsOr optVendor (expandSync url macroMap (inflateWhitelist macroMap))) 0))
  else
    (seen ++ [expandSync url macroMap (inflateWhitelist macroMap)],
     Pending.callout (expandSync url macroMap (inflateWhitelist macroMap))
       (jsOr optVendor (expandSync url macroMap (inflateWhitelist macroMap))))

/-- Modelled from the spec: uncapped counterpart of `processCandidate`. -/
def processCandidateNoCap (customMacros : List (String × String))
    (seen : List String) : Candidate → List String × Pending
  | Candidate.url u => inflateNoCap u seen customMacros none
  | Candidate.vendor name vendorMacros =>
    match vendorLookup (jsToLower name) with
    | none =>
      (seen, Pending.errorNow (buildErrorResponse_ RTC_ERROR_ENUM.UNKNOWN_VENDOR name 0))
    | some url =>
      if url = "" then
        (seen, Pending.errorNow (buildErrorResponse_ RTC_ERROR_ENUM.UNKNOWN_VENDOR name 0))
      else
        inflateNoCap url seen (objectAssign vendorMacros customMacros)
          (some (jsToLower name))

/-- Modelled from the spec: uncapped counterpart of `processCandidates`. -/
def processCandidatesNoCap (customMacros : List (String × String)) :
    List Candidate → List String → List String × List Pending
  | [], seen => (seen, [])
  | c :: cs, seen =>
    let sp := processCandidateNoCap customMacros seen c
    let rest := processCandidatesNoCap customMacros cs sp.1
    (rest.1, sp.2 :: rest.2)

/-- Modelled from the spec: the number of callouts the candidates would
yield absent the cap. -/
def acceptedNoCap (customMacros : List (String × String)) (cs : List Candidate) : Nat :=
  ((processCandidatesNoCap customMacros cs []).1).length

/-- Cause of a network-level promise rejection.  `sendRtcCallout_` wraps the
fetch in `timerFor(win).timeoutPromise(timeoutMillis, ...)`, so a fired
timeout, a connection error and an HTTP failure all surface as rejections
of the same promise chain. -/
inductive RejectCause where
  | timeout : RejectCause
  | connectionError : RejectCause
  | httpFailure : RejectCause

/-- Transport outcome of one dispatched callout: either the body text was
read successfully (with the `Date.now()` value at that moment), or the
chain rejected (with the `Date.now()` value observed in the catch
handler). -/
inductive FetchOutcome where
  | ok (text : String) (now : Nat) : FetchOutcome
  | rejected (cause : RejectCause) (now : Nat) : FetchOutcome

/-- Clock reading carried by an outcome. -/
def nowOf : FetchOutcome → Nat
  | FetchOutcome.ok _ now => now
  | FetchOutcome.rejected _ now => now

/-- Embedding of the body-processing closure of `sendRtcCallout_`
(lines 167-177): an empty text is a success with no payload; otherwise the
`tryParseJson` result is kept when truthy and `MALFORMED_JSON_RESPONSE` is
reported when it is falsy (unparseable or a falsy JSON value). -/
def processResponseText (callout : String) (text : String) (rtcTime : Nat) :
    RtcResponse :=
  if text = "" then
    { callout := callout, rtcTime := rtcTime, rtcResponse := none, error := none }
  else
    match tryParseJson text with
    | some v =>
      if truthy v then
        { callout := callout, rtcTime := rtcTime, rtcResponse := some v, error := none }
      else buildErrorResponse_ RTC_ERROR_ENUM.MALFORMED_JSON_RESPONSE callout rtcTime
    | none => buildErrorResponse_ RTC_ERROR_ENUM.MALFORMED_JSON_RESPONSE callout rtcTime

/-- Promise chain of `sendRtcCallout_` before the final catch: a rejection
anywhere in `timeoutPromise(fetchJson(...).then(...))` propagates. -/
def fetchThen (outcome : FetchOutcome) (rtcStartTime : Nat) (callout : String) :
    Except RejectCause RtcResponse :=
  match outcome with
  | FetchOutcome.ok text now =>
    Except.ok (processResponseText callout text (now - rtcStartTime))
  | FetchOutcome.rejected cause _ => Except.error cause

/-- Embedding of `sendRtcCallout_` (lines 153-182): the trailing catch maps
every rejection, whatever its cause, to a resolved `NETWORK_FAILURE`
record stamped with the elapsed time.  The timeout itself is enforced by
the external timer collaborator; its firing arrives here as a rejection. -/
def sendRtcCallout_ (outcome : FetchOutcome) (rtcStartTime : Nat)
    (_timeoutMillis : Int) (callout : String) : Except RejectCause RtcResponse :=
  match fetchThen outcome rtcStartTime callout with
  | Except.ok r => Except.ok r
  | Except.error _ =>
    Except.ok (buildErrorResponse_ RTC_ERROR_ENUM.NETWORK_FAILURE callout
      (nowOf outcome - rtcStartTime))

/-- Resolution of one `promiseArray` entry: pre-built error records are
already resolved (`Promise.resolve` in `buildErrorResponse_`); dispatched
callouts resolve through `sendRtcCallout_` with their transport outcome. -/
def resolveOne (outcome : FetchOutcome) (rtcStartTime : Nat) (timeoutMillis : Int) :
    Pending → Except RejectCause RtcResponse
  | Pending.errorNow r => Except.ok r
  | Pending.callout _ label => sendRtcCallout_ outcome rtcStartTime timeoutMillis label

/-- Resolution of the whole `promiseArray`, the transport outcome of entry
`i` given by `oracle i`. -/
def resolveAllFrom (oracle : Nat → FetchOutcome) (rtcStartTime : Nat)
    (timeoutMillis : Int) (i : Nat) : List Pending → List (Except RejectCause RtcResponse)
  | [] => []
  | p :: ps =>
    resolveOne (oracle i) rtcStartTime timeoutMillis p ::
      resolveAllFrom oracle rtcStartTime timeoutMillis (i + 1) ps

/-- Embedding of `Promise.all`: resolves to the ordered list of results
when every entry resolves, rejects when any entry rejects. -/
def promiseAll : List (Except RejectCause RtcResponse) →
    Except RejectCause (List RtcResponse)
  | [] => Except.ok []
  | Except.error c :: _ => Except.error c
  | Except.ok r :: rest => Except.map (fun rs => r :: rs) (promiseAll rest)

/-- Embedding of the post-validation body of `maybeExecuteRealTimeConfig_`
on a validated config: run the builder pass over publisher URLs then
vendors, then `Promise.all` over the resolved entries.  `oracle` assigns a
transport outcome to each `promiseArray` position, `rtcStartTime` is the
`Date.now()` reading at line 77. -/
def executeRtc (cfg : RtcConfig) (customMacros : List (String × String))
    (oracle : Nat → FetchOutcome) (rtcStartTime : Nat) :
    Except RejectCause (List RtcResponse) :=
  promiseAll (resolveAllFrom oracle rtcStartTime cfg.timeoutMillis 0
    (pendingsOf customMacros (candidatesOf cfg)))

/-- Embedding of `defaultTimeoutMillis` (line 198). -/
def defaultTimeoutMillis : Int := 1000

/-- Embedding of the timeout block of `validateRtcConfig_` (lines 227-238):
`parseInt` the field; a non-`NaN` value that is `>= default` or negative is
discarded with a warning; `NaN` (including an absent field) warns; finally
`timeout || default` replaces `undefined` and `0` by the default.  Returns
the stored value and whether a timeout warning was emitted. -/
def resolveTimeoutMillis (raw : Option JsonValue) : Int × Bool :=
  match jsParseInt raw with
  | some t =>
    if defaultTimeoutMillis ≤ t ∨ t < 0 then (defaultTimeoutMillis, true)
    else if t = 0 then (defaultTimeoutMillis, false)
    else (t, false)
  | none => (defaultTimeoutMillis, true)

/-- Lift of `isObject` to a possibly-`undefined` value (`isObject(undefined)`
is false). -/
def isObjectOpt : Option JsonValue → Bool
  | some v => isObjectJs v
  | none => false

/-- Lift of `isArray` to a possibly-`undefined` value. -/
def isArrayOpt : Option JsonValue → Bool
  | some v => isArrayJs v
  | none => false

/-- Keyed-entry count `Object.keys(vendors || \x7b\x7d).length` as it
stands at the fourth assert (where `vendors` is falsy or an object). -/
def vendorsKeyCount : Option JsonValue → Nat
  | some (JsonValue.obj fields) => fields.length
  | _ => 0

/-- Sequence length `(urls || []).length` as it stands at the fourth
assert (where `urls` is falsy or an array). -/
def urlsLength : Option JsonValue → Nat
  | some (JsonValue.arr xs) => xs.length
  | _ => 0

/-- Embedding of `validateRtcConfig_` (lines 197-240) on the parse result
of the `rtc-config` attribute (`none` models both a missing attribute and
a JSON parse failure, which `tryParseJson` collapses to a falsy result).
Returns the validated config (`none` disables RTC) together with whether a
timeout warning was emitted; the four `user().assert` calls are the
if-chain, any failure being caught and turned into `null`. -/
def validateRtcConfig_ (attr : Option JsonValue) : Option JsonValue × Bool :=
  match attr with
  | none => (none, false)
  | some cfg =>
    if !(truthy cfg) then (none, false)
    else if !(optTruthy (objGet cfg "vendors") || optTruthy (objGet cfg "urls")) then
      (none, false)
    else if !(!(optTruthy (objGet cfg "vendors")) || isObjectOpt (objGet cfg "vendors")) then
      (none, false)
    else if !(!(optTruthy (objGet cfg "urls")) || isArrayOpt (objGet cfg "urls")) then
      (none, false)
    else if vendorsKeyCount (objGet cfg "vendors") + urlsLength (objGet cfg "urls") = 0 then
      (none, false)
    else
      let tw := resolveTimeoutMillis (objGet cfg "timeoutMillis")
      (some (setField cfg "timeoutMillis" (JsonValue.num tw.1)), tw.2)

/-- Macro map read from a vendor entry's JSON value: `vendors[vendor] || \x7b\x7d`
with string macro values (the only shape the analysed behaviours use;
falsy or non-object values degrade to the empty map exactly as `|| \x7b\x7d`
does for the falsy ones). -/
def macroMapOf : JsonValue → List (String × String)
  | JsonValue.obj fields =>
    fields.filterMap (fun (kv : String × JsonValue) =>
      match kv.2 with
      | JsonValue.str s => some (kv.1, s)
      | _ => none)
  | _ => []

/-- Structured view of a validated config object, as the two `forEach`
loops read it: `urls` entries (strings, the well-formed shape), `vendors`
entries in iteration order, and the stored `timeoutMillis`. -/
def extractRtcConfig (cfg : JsonValue) : RtcConfig :=
  { urls :=
      (match objGet cfg "urls" with
       | some (JsonValue.arr xs) => xs
       | _ => []).filterMap (fun v =>
        match v with
        | JsonValue.str s => some s
        | _ => none)
    vendors :=
      (match objGet cfg "vendors" with
       | some (JsonValue.obj fields) => fields
       | _ => []).map (fun (kv : String × JsonValue) => (kv.1, macroMapOf kv.2))
    timeoutMillis :=
      match objGet cfg "timeoutMillis" with
      | some (JsonValue.num n) => n
      | _ => defaultTimeoutMillis }

/-- Embedding of `maybeExecuteRealTimeConfig_` (lines 70-101) from the raw
attribute parse result: a `null` validation aborts RTC (`undefined` return,
no network activity); otherwise the builder/dispatcher pipeline runs. -/
def maybeExecuteRealTimeConfig_ (attr : Option JsonValue)
    (customMacros : List (String × String)) (oracle : Nat → FetchOutcome)
    (rtcStartTime : Nat) : Option (Except RejectCause (List RtcResponse)) :=
  match (validateRtcConfig_ attr).1 with
  | none => none
  | some cfgJson =>
    some (executeRtc (extractRtcConfig cfgJson) customMacros oracle rtcStartTime)

/-- Modelled from the spec (amended overflow claim): the record each
candidate receives once the cap is full — `MAX_CALLOUTS_EXCEEDED` against
the pre-expansion URL or lowercased vendor name, except that a vendor
absent from the registry still receives `UNKNOWN_VENDOR` under its
original-case name, the registry lookup happening before the cap check. -/
def postCapPending : Candidate → Pending
  | Candidate.url u =>
    Pending.errorNow (buildErrorResponse_ RTC_ERROR_ENUM.MAX_CALLOUTS_EXCEEDED u 0)
  | Candidate.vendor name _ =>
    if jsFalsyUrl (vendorLookup (jsToLower name)) then
      Pending.errorNow (buildErrorResponse_ RTC_ERROR_ENUM.UNKNOWN_VENDOR name 0)
    else
      Pending.errorNow
        (buildErrorResponse_ RTC_ERROR_ENUM.MAX_CALLOUTS_EXCEEDED (jsToLower name) 0)

/-- Modelled from the spec (amended nullity claim): `validate` returns
`null` exactly when the attribute fails to parse, or the parsed value has
neither truthy `vendors` nor truthy `urls`, or `vendors` is truthy but not
a keyed object, or `urls` is truthy but not an array, or the combined
entry count is zero (falsy present fields count as absent). -/
def specNullCondition : Option JsonValue → Bool
  | none => true
  | some cfg =>
    (!(optTruthy (objGet cfg "vendors")) && !(optTruthy (objGet cfg "urls"))) ||
    (optTruthy (objGet cfg "vendors") && !(isObjectOpt (objGet cfg "vendors"))) ||
    (optTruthy (objGet cfg "urls") && !(isArrayOpt (objGet cfg "urls"))) ||
    (vendorsKeyCount (objGet cfg "vendors") + urlsLength (objGet cfg "urls") == 0)

/-- Callout label carried by a pending entry. -/
def pendingCallout : Pending → String
  | Pending.errorNow r => r.callout
  | Pending.callout _ label => label

/-- Error tag carried by a pending entry (`none` for a dispatch). -/
def pendingError : Pending → Option RTC_ERROR_ENUM
  | Pending.errorNow r => r.error
  | Pending.callout _ _ => none

/-- Callout label of a settled promise (rejections never occur; the empty
string is returned for the impossible case). -/
def resultCallout : Except RejectCause RtcResponse → String
  | Except.ok r => r.callout
  | Except.error _ => ""

lemma contains_iff_mem (l : List String) (a : String) : l.contains a = true ↔ a ∈ l :=
  List.elem_iff

lemma vendorLookup_some {s u : String} (h : vendorLookup s = some u) :
    s = "fakevendor" ∧
    u = "https://www.fake.qqq/?slot_id=SLOT_ID&page_id=PAGE_ID&foo_id=FOO_ID" := by
  simp only [vendorLookup, RTC_VENDORS, lookupA] at h
  split_ifs at h with hs
  injection h with h
  exact ⟨hs.symm, h.symm⟩

/-- Each builder step either leaves `seenUrls` unchanged and queues an
error record, or accepts a fresh URL, appending it to `seenUrls`. -/
lemma inflate_cases (url : String) (seen : List String)
    (mm : List (String × String)) (ov : Option String) :
    (∃ r, inflateAndSendRtc_ url seen mm ov = (seen, Pending.errorNow r)) ∨
    (∃ u l, ¬(u ∈ seen) ∧
      inflateAndSendRtc_ url seen mm ov = (seen ++ [u], Pending.callout u l)) := by
  unfold inflateAndSendRtc_
  split_ifs with h1 h2 h3
  · exact Or.inl ⟨_, rfl⟩
  · exact Or.inl ⟨_, rfl⟩
  · exact Or.inl ⟨_, rfl⟩
  · refine Or.inr ⟨_, _, ?_, rfl⟩
    intro hmem
    exact h3 ((contains_iff_mem _ _).2 hmem)

lemma processCandidate_cases (cm : List (String × String)) (seen : List String)
    (c : Candidate) :
    (∃ r, processCandidate cm seen c = (seen, Pending.errorNow r)) ∨
    (∃ u l, ¬(u ∈ seen) ∧
      processCandidate cm seen c = (seen ++ [u], Pending.callout u l)) := by
  cases c with
  | url u => simpa only [processCandidate] using inflate_cases u seen cm none
  | vendor name vm =>
    rcases hv : vendorLookup (jsToLower name) with _ | url
    · exact Or.inl ⟨buildErrorResponse_ RTC_ERROR_ENUM.UNKNOWN_VENDOR name 0,
        by simp [processCandidate, hv]⟩
    · by_cases hu : url = ""
      · exact Or.inl ⟨buildErrorResponse_ RTC_ERROR_ENUM.UNKNOWN_VENDOR name 0,
          by simp [processCandidate, hv, hu]⟩
      · rcases inflate_cases url seen (objectAssign vm cm) (some (jsToLower name)) with
          ⟨r, h⟩ | ⟨u, l, hm, h⟩
        · exact Or.inl ⟨r, by simp [processCandidate, hv, hu, h]⟩
        · exact Or.inr ⟨u, l, hm, by simp [processCandidate, hv, hu, h]⟩

/-- The final `seenUrls` is the initial one extended by exactly the URLs of
the dispatched callouts, in dispatch order. -/
lemma seen_eq_append_calloutUrls (cm : List (String × String)) :
    ∀ (cs : List Candidate) (seen : List String),
    (processCandidates cm cs seen).1 = seen ++ calloutUrls (processCandidates cm cs seen).2 := by
  intro cs
  induction cs with
  | nil => intro seen; simp [processCandidates, calloutUrls]
  | cons c cs ih =>
    intro seen
    rcases processCandidate_cases cm seen c with ⟨r, h⟩ | ⟨u, l, _, h⟩
    · simp [processCandidates, h, calloutUrls, ih]
    · simp [processCandidates, h, calloutUrls, ih seen, ih (seen ++ [u])]

/-- The builder never dispatches twice to the same URL: the accumulated
`seenUrls` stays duplicate-free. -/
lemma seen_nodup (cm : List (String × String)) :
    ∀ (cs : List Candidate) (seen : List String), seen.Nodup →
    ((processCandidates cm cs seen).1).Nodup := by
  intro cs
  induction cs with
  | nil => intro seen h; simpa [processCandidates] using h
  | cons c cs ih =>
    intro seen h
    rcases processCandidate_cases cm seen c with ⟨r, hc⟩ | ⟨u, l, hu, hc⟩
    · simpa [processCandidates, hc] using ih seen h
    · refine ?_
      have hnew : (seen ++ [u]).Nodup := by
        refine List.Nodup.append h (List.nodup_singleton u) ?_
        intro a ha hb
        rcases List.mem_singleton.1 hb with rfl
        exact hu ha
      simpa [processCandidates, hc] using ih (seen ++ [u]) hnew

/-- One `promiseArray` entry is pushed per candidate. -/
lemma pendings_length (cm : List (String × String)) :
    ∀ (cs : List Candidate) (seen : List String),
    ((processCandidates cm cs seen).2).length = cs.length := by
  intro cs
  induction cs with
  | nil => intro seen; simp [processCandidates]
  | cons c cs ih => intro seen; simp [processCandidates, ih]

/-- A step of the uncapped builder only ever appends to `seenUrls`. -/
lemma noCap_candidate_state (cm : List (String × String)) (seen : List String)
    (c : Candidate) :
    (processCandidateNoCap cm seen c).1 = seen ∨
    ∃ u, (processCandidateNoCap cm seen c).1 = seen ++ [u] := by
  cases c with
  | url u =>
    simp only [processCandidateNoCap, inflateNoCap]
    split_ifs
    · exact Or.inl rfl
    · exact Or.inl rfl
    · exact Or.inr ⟨_, rfl⟩
  | vendor name vm =>
    simp only [processCandidateNoCap]
    rcases vendorLookup (jsToLower name) with _ | url
    · exact Or.inl rfl
    · by_cases hu : url = ""
      · simp only [hu, if_pos rfl]
        exact Or.inl rfl
      · simp only [if_neg hu, inflateNoCap]
        split_ifs
        · exact Or.inl rfl
        · exact Or.inl rfl
        · exact Or.inr ⟨_, rfl⟩

/-- The uncapped builder never shrinks `seenUrls`. -/
lemma noCap_seen_mono (cm : List (String × String)) :
    ∀ (cs : List Candidate) (seen : List String),
    seen.length ≤ ((processCandidatesNoCap cm cs seen).1).length := by
  intro cs
  induction cs with
  | nil => intro seen; simp [processCandidatesNoCap]
  | cons c cs ih =>
    intro seen
    rcases noCap_candidate_state cm seen c with h | ⟨u, h⟩
    · simpa [processCandidatesNoCap, h] using ih seen
    · calc seen.length ≤ (seen ++ [u]).length := by simp
        _ ≤ _ := by simpa [processCandidatesNoCap, h] using ih (seen ++ [u])

/-- Below the cap, the capped and uncapped builder steps agree. -/
lemma inflate_eq_noCap {seen : List String} (h : seen.length ≠ MAX_RTC_CALLOUTS)
    (url : String) (mm : List (String × String)) (ov : Option String) :
    inflateAndSendRtc_ url seen mm ov = inflateNoCap url seen mm ov := by
  unfold inflateAndSendRtc_ inflateNoCap
  rw [if_neg h]

/-- Below the cap, capped and uncapped candidate processing agree. -/
lemma processCandidate_eq_noCap (cm : List (String × String)) {seen : List String}
    (h : seen.length ≠ MAX_RTC_CALLOUTS) (c : Candidate) :
    processCandidate cm seen c = processCandidateNoCap cm seen c := by
  cases c with
  | url u => simpa only [processCandidate, processCandidateNoCap] using
      inflate_eq_noCap h u cm none
  | vendor name vm =>
    simp only [processCandidate, processCandidateNoCap]
    rcases vendorLookup (jsToLower name) with _ | url
    · rfl
    · by_cases hu : url = ""
      · simp [hu]
      · simpa only [if_neg hu] using
          inflate_eq_noCap h url (objectAssign vm cm) (some (jsToLower name))

/-- At a full cap, every remaining candidate is short-circuited to its
post-cap record and `seenUrls` is left untouched. -/
lemma processCandidates_at_cap (cm : List (String × String)) :
    ∀ (cs : List Candidate) (seen : List String),
    seen.length = MAX_RTC_CALLOUTS →
    processCandidates cm cs seen = (seen, cs.map postCapPending) := by
  intro cs
  induction cs with
  | nil => intro seen _; simp [processCandidates]
  | cons c cs ih =>
    intro seen hlen
    have hc : processCandidate cm seen c = (seen, postCapPending c) := by
      cases c with
      | url u =>
        simp [processCandidate, inflateAndSendRtc_, hlen, postCapPending, jsOr]
      | vendor name vm =>
        rcases hv : vendorLookup (jsToLower name) with _ | url
        · simp [processCandidate, hv, postCapPending, jsFalsyUrl]
        · by_cases hu : url = ""
          · simp [processCandidate, hv, hu, postCapPending, jsFalsyUrl]
          · have hfv : jsToLower name = "fakevendor" := (vendorLookup_some hv).1
            have hne : jsToLower name ≠ "" := by rw [hfv]; decide
            simp [processCandidate, hv, hu, postCapPending, jsFalsyUrl,
              inflateAndSendRtc_, hlen, jsOr, hne]
    simp [processCandidates, hc, ih seen hlen]

/-- The number of accepted callouts with the cap in force is the uncapped
number clipped at the cap. -/
lemma capped_len_eq_min (cm : List (String × String)) :
    ∀ (cs : List Candidate) (seen : List String),
    seen.length ≤ MAX_RTC_CALLOUTS →
    ((processCandidates cm cs seen).1).length =
      min (((processCandidatesNoCap cm cs seen).1).length) MAX_RTC_CALLOUTS := by
  intro cs
  induction cs with
  | nil =>
    intro seen h
    simp [processCandidates, processCandidatesNoCap, Nat.min_eq_left h]
  | cons c cs ih =>
    intro seen hle
    by_cases hfull : seen.length = MAX_RTC_CALLOUTS
    · rw [processCandidates_at_cap cm (c :: cs) seen hfull]
      have hmono : MAX_RTC_CALLOUTS ≤ ((processCandidatesNoCap cm (c :: cs) seen).1).length := by
        rw [← hfull]; exact noCap_seen_mono cm (c :: cs) seen
      simp [Nat.min_eq_right hmono, hfull]
    · have hstep := processCandidate_eq_noCap cm hfull c
      have hlen1 : ((processCandidate cm seen c).1).length ≤ MAX_RTC_CALLOUTS := by
        rcases processCandidate_cases cm seen c with ⟨r, hc⟩ | ⟨u, l, _, hc⟩
        · rw [hc]; exact hle
        · rw [hc]
          simpa [List.length_append] using
            Nat.succ_le_of_lt (Nat.lt_of_le_of_ne hle hfull)
      have := ih ((processCandidate cm seen c).1) hlen1
      simp only [processCandidates, processCandidatesNoCap, ← hstep]
      exact this

/-- The record produced by the body-processing closure always carries the
callout label it was given. -/
lemma processResponseText_callout (l text : String) (t : Nat) :
    (processResponseText l text t).callout = l := by
  unfold processResponseText
  split_ifs with h
  · rfl
  · rcases tryParseJson text with _ | v
    · rfl
    · by_cases ht : truthy v <;> simp [ht, buildErrorResponse_]

/-- Every `promiseArray` entry resolves (never rejects) to a record tagged
with its own callout label. -/
lemma resolveOne_ok (o : FetchOutcome) (s : Nat) (t : Int) (p : Pending) :
    ∃ r, resolveOne o s t p = Except.ok r ∧ r.callout = pendingCallout p := by
  cases p with
  | errorNow r => exact ⟨r, rfl, rfl⟩
  | callout u l =>
    cases o with
    | ok text now => exact ⟨_, rfl, processResponseText_callout l text (now - s)⟩
    | rejected c now => exact ⟨_, rfl, rfl⟩

/-- The aggregate of the resolved `promiseArray` always resolves, to one
record per entry. -/
lemma resolveAll_ok (oracle : Nat → FetchOutcome) (start : Nat) (t : Int) :
    ∀ (ps : List Pending) (i : Nat),
    ∃ rs, promiseAll (resolveAllFrom oracle start t i ps) = Except.ok rs ∧
      rs.length = ps.length := by
  intro ps
  induction ps with
  | nil => intro i; exact ⟨[], rfl, rfl⟩
  | cons p ps ih =>
    intro i
    obtain ⟨r, hr, _⟩ := resolveOne_ok (oracle i) start t p
    obtain ⟨rs, hrs, hlen⟩ := ih (i + 1)
    refine ⟨r :: rs, ?_, by simp [hlen]⟩
    simp [resolveAllFrom, promiseAll, hr, hrs, Except.map]

lemma lookupField_none_of_not_any {fs : List (String × JsonValue)} {k : String}
    (h : fs.any (fun kv => kv.1 == k) = false) : lookupField fs k = none := by
  induction fs with
  | nil => rfl
  | cons kv rest ih =>
    simp only [List.any_cons, Bool.or_eq_false_iff, beq_eq_false_iff_ne] at h
    simp [lookupField, h.1, ih (by simpa using h.2)]

lemma lookupField_append_left_none {l₁ l₂ : List (String × JsonValue)} {k : String}
    (h : lookupField l₁ k = none) : lookupField (l₁ ++ l₂) k = lookupField l₂ k := by
  induction l₁ with
  | nil => rfl
  | cons kv rest ih =>
    by_cases hk : kv.1 = k
    · simp [lookupField, hk] at h
    · simp only [lookupField, if_neg hk] at h ⊢
      exact ih h

lemma lookupField_overwrite {k : String} (v : JsonValue) :
    ∀ (fs : List (String × JsonValue)), fs.any (fun kv => kv.1 == k) = true →
    lookupField (fs.map (fun kv => if kv.1 = k then (k, v) else kv)) k = some v := by
  intro fs
  induction fs with
  | nil => intro h; cases h
  | cons kv rest ih =>
    intro h
    by_cases hk : kv.1 = k
    · simp [lookupField, hk]
    · simp only [List.any_cons, Bool.or_eq_true, beq_iff_eq] at h
      rcases h with h | h
      · exact absurd h hk
      · simp only [List.map_cons, if_neg hk, lookupField, if_neg hk]
        exact ih h

/-- JavaScript assignment followed by a read of the same key yields the
assigned value. -/
lemma lookupField_insertField (fs : List (String × JsonValue)) (k : String)
    (v : JsonValue) : lookupField (insertField fs k v) k = some v := by
  unfold insertField
  split_ifs with h
  · exact lookupField_overwrite v fs h
  · rw [lookupField_append_left_none
      (lookupField_none_of_not_any (Bool.not_eq_true _ ▸ (by simpa using h)))]
    simp [lookupField]

lemma objGet_setField_obj (fs : List (String × JsonValue)) (k : String)
    (v : JsonValue) : objGet (setField (JsonValue.obj fs) k v) k = some v := by
  simp [setField, objGet, lookupField_insertField]

lemma keysOf_cons (kv : String × String) (l : List (String × String)) :
    keysOf (kv :: l) = kv.1 :: keysOf l := rfl

lemma lookupA_isSome_of_mem_keys {l : List (String × String)} {k : String}
    (h : k ∈ keysOf l) : ∃ w, lookupA l k = some w := by
  induction l with
  | nil => cases h
  | cons kv rest ih =>
    by_cases hk : kv.1 = k
    · exact ⟨kv.2, by simp [lookupA, hk]⟩
    · rcases List.mem_cons.1 (keysOf_cons kv rest ▸ h) with h1 | h1
      · exact absurd h1.symm hk
      · simpa [lookupA, hk] using ih h1

lemma lookupA_append_left_none {l₁ l₂ : List (String × String)} {k : String}
    (h : lookupA l₁ k = none) : lookupA (l₁ ++ l₂) k = lookupA l₂ k := by
  induction l₁ with
  | nil => rfl
  | cons kv rest ih =>
    by_cases hk : kv.1 = k
    · simp [lookupA, hk] at h
    · simp only [lookupA, if_neg hk] at h ⊢
      exact ih h

lemma lookupA_append_left_some {l₁ l₂ : List (String × String)} {k w : String}
    (h : lookupA l₁ k = some w) : lookupA (l₁ ++ l₂) k = some w := by
  induction l₁ with
  | nil => cases h
  | cons kv rest ih =>
    by_cases hk : kv.1 = k
    · simpa [lookupA, hk] using h
    · simp only [lookupA, if_neg hk] at h ⊢
      exact ih h

lemma lookupA_assign_map_mem {cm : List (String × String)} {k w : String}
    (hw : lookupA cm k = some w) :
    ∀ (vm : List (String × String)), k ∈ keysOf vm →
    lookupA (vm.map fun kv =>
      match lookupA cm kv.1 with
      | some v => (kv.1, v)
      | none => kv) k = some w := by
  intro vm
  induction vm with
  | nil => intro h; cases h
  | cons kv rest ih =>
    intro h
    by_cases hk : kv.1 = k
    · subst hk
      simp [lookupA, hw]
    · have hmem : k ∈ keysOf rest := by
        rcases List.mem_cons.1 (keysOf_cons kv rest ▸ h) with h1 | h1
        · exact absurd h1.symm hk
        · exact h1
      rcases hcm : lookupA cm kv.1 with _ | v <;>
        simpa [lookupA, hcm, hk] using ih hmem

lemma lookupA_assign_map_not_mem {cm : List (String × String)} {k : String} :
    ∀ (vm : List (String × String)), ¬(k ∈ keysOf vm) →
    lookupA (vm.map fun kv =>
      match lookupA cm kv.1 with
      | some v => (kv.1, v)
      | none => kv) k = none := by
  intro vm
  induction vm with
  | nil => intro _; rfl
  | cons kv rest ih =>
    intro h
    have hk : ¬(kv.1 = k) := fun he =>
      h (keysOf_cons kv rest ▸ List.mem_cons.2 (Or.inl he.symm))
    have hrest : ¬(k ∈ keysOf rest) := fun hm =>
      h (keysOf_cons kv rest ▸ List.mem_cons.2 (Or.inr hm))
    rcases hcm : lookupA cm kv.1 with _ | v <;>
      simpa [lookupA, hcm, hk] using ih hrest

lemma lookupA_filter_of_not_mem {vm : List (String × String)} {k : String}
    (hvm : ¬(k ∈ keysOf vm)) :
    ∀ (cm : List (String × String)),
    lookupA (cm.filter fun kv => !((keysOf vm).contains kv.1)) k = lookupA cm k := by
  intro cm
  induction cm with
  | nil => rfl
  | cons kv rest ih =>
    by_cases hk : kv.1 = k
    · subst hk
      simp [List.filter_cons, hvm, lookupA]
    · by_cases hm : kv.1 ∈ keysOf vm
      · simp only [List.filter_cons, lookupA, if_neg hk]
        rw [if_neg (by simpa using hm)]
        simpa using ih
      · simp only [List.filter_cons, lookupA, if_neg hk]
        rw [if_pos (by simpa using hm)]
        simp only [lookupA, if_neg hk]
        simpa using ih

lemma keysOf_assign_map (cm : List (String × String)) :
    ∀ (vm : List (String × String)),
    keysOf (vm.map fun kv =>
      match lookupA cm kv.1 with
      | some v => (kv.1, v)
      | none => kv) = keysOf vm := by
  intro vm
  induction vm with
  | nil => rfl
  | cons kv rest ih =>
    rcases hcm : lookupA cm kv.1 with _ | v <;> simpa [keysOf, hcm] using ih

/-- The builder pass over a concatenation is the pass over the first part
followed by the pass over the second from the intermediate state. -/
lemma processCandidates_append (cm : List (String × String)) :
    ∀ (cs₁ cs₂ : List Candidate) (seen : List String),
    processCandidates cm (cs₁ ++ cs₂) seen =
      ((processCandidates cm cs₂ (processCandidates cm cs₁ seen).1).1,
       (processCandidates cm cs₁ seen).2 ++
         (processCandidates cm cs₂ (processCandidates cm cs₁ seen).1).2) := by
  intro cs₁
  induction cs₁ with
  | nil => intro cs₂ seen; simp [processCandidates]
  | cons c cs ih => intro cs₂ seen; simp [processCandidates, ih]

/-- C2 (amended): for a dispatched callout whose transport succeeds, an
empty body yields a bare success record; a non-empty body whose
`tryParseJson` result is truthy yields the parsed payload; a non-empty
body whose `tryParseJson` result is falsy — unparseable, or parsing to a
falsy JSON value such as `null`, `false`, `0` or the empty string — yields
`MALFORMED_JSON_RESPONSE`. -/
theorem rtc_c2_response_processing (callout text : String) (rtcTime : Nat) :
    (text = "" →
      processResponseText callout text rtcTime =
        { callout := callout, rtcTime := rtcTime, rtcResponse := none, error := none }) ∧
    (∀ v, text ≠ "" → tryParseJson text = some v → truthy v = true →
      processResponseText callout text rtcTime =
        { callout := callout, rtcTime := rtcTime, rtcResponse := some v, error := none }) ∧
    (text ≠ "" → jsTruthyOpt (tryParseJson text) = false →
      processResponseText callout text rtcTime =
        buildErrorResponse_ RTC_ERROR_ENUM.MALFORMED_JSON_RESPONSE callout rtcTime) := by
  refine ⟨?_, ?_, ?_⟩
  · intro h
    simp [processResponseText, h]
  · intro v hne hp ht
    simp [processResponseText, hne, hp, ht]
  · intro hne hf
    rcases hp : tryParseJson text with _ | v
    · simp [processResponseText, hne, hp]
    · rw [hp] at hf
      simp only [jsTruthyOpt] at hf
      simp [processResponseText, hne, hp, hf]

/-- C2 counterexample: the body `"0"` is non-empty and parses as JSON (to
the number `0`), yet the record reports `MALFORMED_JSON_RESPONSE` with no
`rtcResponse`, contradicting the claim that every parsing non-empty body
yields `rtcResponse` with the parsed value. -/
theorem rtc_c2_counterexample :
    ("0" : String) ≠ "" ∧
    tryParseJson "0" = some (JsonValue.num 0) ∧
    (processResponseText "a" "0" 7).rtcResponse = none ∧
    (processResponseText "a" "0" 7).error = some RTC_ERROR_ENUM.MALFORMED_JSON_RESPONSE :=
  ⟨by decide, rfl, rfl, rfl⟩

/-- C2 witness: concrete round trips — empty body, the body consisting of
an empty JSON object, and an unparseable body. -/
theorem rtc_c2_witness :
    processResponseText "x" "" 12 =
      { callout := "x", rtcTime := 12, rtcResponse := none, error := none } ∧
    (tryParseJson "\x7b\x7d" = some (JsonValue.obj []) ∧
     processResponseText "x" "\x7b\x7d" 12 =
       { callout := "x", rtcTime := 12, rtcResponse := some (JsonValue.obj []),
         error := none }) ∧
    processResponseText "x" "notjson" 12 =
      buildErrorResponse_ RTC_ERROR_ENUM.MALFORMED_JSON_RESPONSE "x" 12 :=
  ⟨(rtc_c2_response_processing "x" "" 12).1 rfl,
   ⟨rfl, (rtc_c2_response_processing "x" "\x7b\x7d" 12).2.1 (JsonValue.obj [])
      (by decide) rfl rfl⟩,
   (rtc_c2_response_processing "x" "notjson" 12).2.2 (by decide) rfl⟩

/-- C5: a vendor entry whose lowercased name misses the registry receives
`UNKNOWN_VENDOR` (under its original-case name) with `seenUrls` untouched
and nothing dispatched, whatever the current builder state — the registry
check precedes the cap, security and duplicate checks for that entry. -/
theorem rtc_c5_unknown_vendor (cm : List (String × String)) (seen : List String)
    (name : String) (vm : List (String × String))
    (h : vendorLookup (jsToLower name) = none) :
    processCandidate cm seen (Candidate.vendor name vm) =
      (seen, Pending.errorNow (buildErrorResponse_ RTC_ERROR_ENUM.UNKNOWN_VENDOR name 0)) := by
  simp [processCandidate, h]

/-- C5 witness: an unknown vendor against a builder state that has already
reached the cap still yields `UNKNOWN_VENDOR`, not a cap error, and no
dispatch. -/
theorem rtc_c5_witness :
    vendorLookup (jsToLower "NoSuchVendor") = none ∧
    processCandidate [("X", "1")]
      ["https://a.com/", "https://b.com/", "https://c.com/", "https://d.com/",
       "https://e.com/"]
      (Candidate.vendor "NoSuchVendor" [("Y", "2")]) =
      (["https://a.com/", "https://b.com/", "https://c.com/", "https://d.com/",
        "https://e.com/"],
       Pending.errorNow (buildErrorResponse_ RTC_ERROR_ENUM.UNKNOWN_VENDOR "NoSuchVendor" 0)) :=
  ⟨rfl, rtc_c5_unknown_vendor _ _ _ _ rfl⟩

/-- C4: no two dispatches ever target the same URL (the accepted-URL list
is duplicate-free, and equals the final `seenUrls`, so membership in
`seenUrls` means an earlier entry was dispatched to that URL); a candidate
below the cap whose expansion hits an already-accepted URL receives
`DUPLICATE_URL` and leaves `seenUrls` — hence the remaining cap capacity —
unchanged. -/
theorem rtc_c4_duplicate_url (cm : List (String × String)) (cs : List Candidate)
    (seen : List String) (mm : List (String × String)) (ov : Option String)
    (url : String)
    (h1 : seen.length ≠ MAX_RTC_CALLOUTS)
    (h2 : isSecureUrl (expandSync url mm (inflateWhitelist mm)) = true)
    (h3 : seen.contains (expandSync url mm (inflateWhitelist mm)) = true) :
    List.Nodup (calloutUrls (pendingsOf cm cs)) ∧
    seenAfter cm cs = calloutUrls (pendingsOf cm cs) ∧
    inflateAndSendRtc_ url seen mm ov =
      (seen, Pending.errorNow (buildErrorResponse_ RTC_ERROR_ENUM.DUPLICATE_URL
        (jsOr ov (expandSync url mm (inflateWhitelist mm))) 0)) := by
  refine ⟨?_, ?_, ?_⟩
  · have h := seen_nodup cm cs [] List.nodup_nil
    rw [seen_eq_append_calloutUrls cm cs []] at h
    simpa [pendingsOf] using h
  · have h := seen_eq_append_calloutUrls cm cs []
    simpa [seenAfter, pendingsOf] using h
  · unfold inflateAndSendRtc_
    rw [if_neg h1, if_neg (by simp [h2]), if_pos h3]

/-- Candidate list of the C4 witness: two publisher URLs expanding to the
identical string. -/
def c4Cands : List Candidate :=
  [Candidate.url "https://dup.com/", Candidate.url "https://dup.com/"]

/-- C4 witness: with two identical publisher URLs, exactly one dispatch
happens and the repeat is refused as a duplicate without consuming a cap
slot. -/
theorem rtc_c4_witness :
    List.Nodup (calloutUrls (pendingsOf [] c4Cands)) ∧
    seenAfter [] c4Cands = calloutUrls (pendingsOf [] c4Cands) ∧
    inflateAndSendRtc_ "https://dup.com/" ["https://dup.com/"] [] none =
      (["https://dup.com/"],
       Pending.errorNow (buildErrorResponse_ RTC_ERROR_ENUM.DUPLICATE_URL
         "https://dup.com/" 0)) ∧
    dispatchCount (pendingsOf [] c4Cands) = 1 ∧
    pendingError ((pendingsOf [] c4Cands).getD 1 (Pending.callout "" "")) =
      some RTC_ERROR_ENUM.DUPLICATE_URL := by
  have h := rtc_c4_duplicate_url [] c4Cands ["https://dup.com/"] [] none
    "https://dup.com/" (by decide) (by decide) (by decide)
  exact ⟨h.1, h.2.1, h.2.2, by decide, by decide⟩

/-- C9: in the macro map a vendor callout is expanded with, every key
declared by both the vendor config and the ad network resolves to the ad
network's value (`Object.assign` applies the network macros last), and the
expansion whitelist is exactly the key set of the merged map. -/
theorem rtc_c9_macro_merge (vm cm : List (String × String)) (k : String) :
    (k ∈ keysOf vm → k ∈ keysOf cm →
      lookupA (objectAssign vm cm) k = lookupA cm k) ∧
    (k ∈ inflateWhitelist (objectAssign vm cm) ↔ (k ∈ keysOf vm ∨ k ∈ keysOf cm)) := by
  constructor
  · intro hvm hcm
    obtain ⟨w, hw⟩ := lookupA_isSome_of_mem_keys hcm
    rw [hw, objectAssign]
    exact lookupA_append_left_some (lookupA_assign_map_mem hw vm hvm)
  · have hs : inflateWhitelist (objectAssign vm cm) =
        keysOf vm ++ keysOf (cm.filter fun kv => !((keysOf vm).contains kv.1)) := by
      unfold inflateWhitelist objectAssign
      show keysOf _ = _
      rw [show keysOf ((vm.map fun kv =>
            match lookupA cm kv.1 with
            | some v => (kv.1, v)
            | none => kv) ++ cm.filter fun kv => !((keysOf vm).contains kv.1)) =
          keysOf (vm.map fun kv =>
            match lookupA cm kv.1 with
            | some v => (kv.1, v)
            | none => kv) ++
          keysOf (cm.filter fun kv => !((keysOf vm).contains kv.1)) from
        List.map_append _ _ _]
      rw [keysOf_assign_map]
    rw [hs, List.mem_append]
    constructor
    · rintro (h | h)
      · exact Or.inl h
      · obtain ⟨kv, hkv, hfst⟩ := List.mem_map.1 h
        exact Or.inr (hfst ▸ List.mem_map.2 ⟨kv, (List.mem_filter.1 hkv).1, rfl⟩)
    · rintro (h | h)
      · exact Or.inl h
      · by_cases hvk : k ∈ keysOf vm
        · exact Or.inl hvk
        · right
          obtain ⟨kv, hkv, hfst⟩ := List.mem_map.1 h
          have hpred : (!((keysOf vm).contains kv.1)) = true := by
            rcases hx : (keysOf vm).contains kv.1
            · rfl
            · exact absurd (hfst ▸ (contains_iff_mem _ _).1 hx) hvk
          exact List.mem_map.2 ⟨kv, List.mem_filter.2 ⟨hkv, hpred⟩, hfst⟩

/-- C9 witness: a key declared by both maps resolves to the ad-network
value in the merged map, and the whitelist agrees with the key union. -/
theorem rtc_c9_witness :
    lookupA (objectAssign [("SLOT_ID", "1"), ("V", "a")] [("SLOT_ID", "2"), ("N", "b")])
      "SLOT_ID" = some "2" ∧
    lookupA (objectAssign [("SLOT_ID", "1"), ("V", "a")] [("SLOT_ID", "2"), ("N", "b")])
      "SLOT_ID" =
      lookupA [("SLOT_ID", "2"), ("N", "b")] "SLOT_ID" ∧
    ("N" ∈ inflateWhitelist
      (objectAssign [("SLOT_ID", "1"), ("V", "a")] [("SLOT_ID", "2"), ("N", "b")]) ↔
      ("N" ∈ keysOf [("SLOT_ID", "1"), ("V", "a")] ∨
       "N" ∈ keysOf [("SLOT_ID", "2"), ("N", "b")])) :=
  ⟨rfl,
   (rtc_c9_macro_merge [("SLOT_ID", "1"), ("V", "a")] [("SLOT_ID", "2"), ("N", "b")]
     "SLOT_ID").1 (by decide) (by decide),
   (rtc_c9_macro_merge [("SLOT_ID", "1"), ("V", "a")] [("SLOT_ID", "2"), ("N", "b")]
     "N").2⟩

/-- C10: the record a vendor entry produces carries the original-case
vendor name exactly when the registry read is falsy (`UNKNOWN_VENDOR`),
and the lowercased name in every other case — cap, security and duplicate
errors included — and the dispatcher preserves that label through
resolution whatever the transport outcome. -/
theorem rtc_c10_vendor_label (cm : List (String × String)) (seen : List String)
    (name : String) (vm : List (String × String)) (outcome : FetchOutcome)
    (start : Nat) (t : Int) :
    pendingCallout ((processCandidate cm seen (Candidate.vendor name vm)).2) =
      (if jsFalsyUrl (vendorLookup (jsToLower name)) = true then name
       else jsToLower name) ∧
    resultCallout (resolveOne outcome start t
        ((processCandidate cm seen (Candidate.vendor name vm)).2)) =
      pendingCallout ((processCandidate cm seen (Candidate.vendor name vm)).2) := by
  constructor
  · rcases hv : vendorLookup (jsToLower name) with _ | url
    · simp [processCandidate, hv, pendingCallout, buildErrorResponse_, jsFalsyUrl]
    · by_cases hu : url = ""
      · simp [processCandidate, hv, hu, pendingCallout, buildErrorResponse_, jsFalsyUrl]
      · have hfv : jsToLower name = "fakevendor" := (vendorLookup_some hv).1
        have hne : jsToLower name ≠ "" := by rw [hfv]; decide
        rw [show jsFalsyUrl (some url) = false by simp [jsFalsyUrl, hu],
          if_neg (by simp)]
        simp only [processCandidate, hv, if_neg hu, inflateAndSendRtc_]
        split_ifs <;>
          simp [pendingCallout, buildErrorResponse_, jsOr, hne]
  · obtain ⟨r, hr, hc⟩ := resolveOne_ok outcome start t
      ((processCandidate cm seen (Candidate.vendor name vm)).2)
    rw [hr]
    simpa [resultCallout] using hc

/-- C1 (amended): for any candidate list that would yield more than the
cap of accepted callouts, exactly `MAX_RTC_CALLOUTS` requests are
dispatched, and from the point the cap is full every remaining candidate
is short-circuited, in input order and with no security or duplicate
check, to `MAX_CALLOUTS_EXCEEDED` — except a vendor absent from the
registry, which still receives `UNKNOWN_VENDOR` because the registry
lookup precedes the cap check. -/
theorem rtc_c1_callout_cap (cm : List (String × String)) (cs : List Candidate)
    (h : MAX_RTC_CALLOUTS < acceptedNoCap cm cs) :
    dispatchCount (pendingsOf cm cs) = MAX_RTC_CALLOUTS ∧
    (∀ cs₁ cs₂, cs = cs₁ ++ cs₂ →
      (seenAfter cm cs₁).length = MAX_RTC_CALLOUTS →
      pendingsOf cm cs = pendingsOf cm cs₁ ++ cs₂.map postCapPending) := by
  constructor
  · have hlen := capped_len_eq_min cm cs [] (by simp [MAX_RTC_CALLOUTS])
    have hsc := seen_eq_append_calloutUrls cm cs []
    have hdc : dispatchCount (pendingsOf cm cs) =
        ((processCandidates cm cs []).1).length := by
      unfold dispatchCount pendingsOf
      rw [hsc]
      simp
    rw [hdc, hlen]
    exact Nat.min_eq_right (Nat.le_of_lt h)
  · intro cs₁ cs₂ hsplit hful
    subst hsplit
    have happ := processCandidates_append cm cs₁ cs₂ []
    have hcap := processCandidates_at_cap cm cs₂ ((processCandidates cm cs₁ []).1) hful
    unfold pendingsOf
    rw [happ]
    simp [hcap]

/-- Candidate list of the C1 counterexample and witness: five accepted
publisher URLs, then an unknown vendor, then a known vendor; seven
candidates of which six would be accepted without the cap. -/
def c1Cands : List Candidate :=
  [Candidate.url "https://a1.com/", Candidate.url "https://a2.com/",
   Candidate.url "https://a3.com/", Candidate.url "https://a4.com/",
   Candidate.url "https://a5.com/",
   Candidate.vendor "nosuchvendor" [],
   Candidate.vendor "FakeVendor" []]

/-- C1 counterexample: with more would-be-accepted candidates than the
cap, a remaining candidate processed after the cap is full — the unknown
vendor at position 5 — receives `UNKNOWN_VENDOR`, not the
`MAX_CALLOUTS_EXCEEDED` the claim promises for every remaining
candidate. -/
theorem rtc_c1_counterexample :
    MAX_RTC_CALLOUTS < acceptedNoCap [] c1Cands ∧
    (seenAfter [] (c1Cands.take 5)).length = MAX_RTC_CALLOUTS ∧
    pendingError ((pendingsOf [] c1Cands).getD 5 (Pending.callout "" "")) =
      some RTC_ERROR_ENUM.UNKNOWN_VENDOR ∧
    pendingError ((pendingsOf [] c1Cands).getD 5 (Pending.callout "" "")) ≠
      some RTC_ERROR_ENUM.MAX_CALLOUTS_EXCEEDED :=
  ⟨by decide, by decide, by decide, by decide⟩

/-- Prefix of `c1Cands` up to (and including) the point the cap fills. -/
def c1CandsA : List Candidate :=
  [Candidate.url "https://a1.com/", Candidate.url "https://a2.com/",
   Candidate.url "https://a3.com/", Candidate.url "https://a4.com/",
   Candidate.url "https://a5.com/",
   Candidate.vendor "nosuchvendor" []]

/-- Remainder of `c1Cands` after the cap fills. -/
def c1CandsB : List Candidate :=
  [Candidate.vendor "FakeVendor" []]

/-- C1 witness: the amended cap property instantiated on the concrete
seven-candidate overflow configuration. -/
theorem rtc_c1_witness :
    MAX_RTC_CALLOUTS < acceptedNoCap [] c1Cands ∧
    dispatchCount (pendingsOf [] c1Cands) = MAX_RTC_CALLOUTS ∧
    pendingsOf [] c1Cands = pendingsOf [] c1CandsA ++ c1CandsB.map postCapPending :=
  ⟨by decide,
   (rtc_c1_callout_cap [] c1Cands (by decide)).1,
   (rtc_c1_callout_cap [] c1Cands (by decide)).2 c1CandsA c1CandsB rfl (by decide)⟩

/-- C6: the builder queues exactly one `promiseArray` entry per candidate
— publisher URLs first in array order, vendor entries second in iteration
order, a pass over a concatenation being the two passes in sequence — and
the aggregate resolves to exactly one record per candidate, in that
order. -/
theorem rtc_c6_ordered_results (cm : List (String × String)) (cfg : RtcConfig)
    (oracle : Nat → FetchOutcome) (start : Nat)
    (cs₁ cs₂ : List Candidate) (seen : List String) :
    (pendingsOf cm (candidatesOf cfg)).length =
      cfg.urls.length + cfg.vendors.length ∧
    processCandidates cm (cs₁ ++ cs₂) seen =
      ((processCandidates cm cs₂ (processCandidates cm cs₁ seen).1).1,
       (processCandidates cm cs₁ seen).2 ++
         (processCandidates cm cs₂ (processCandidates cm cs₁ seen).1).2) ∧
    ∃ rs, executeRtc cfg cm oracle start = Except.ok rs ∧
      rs.length = cfg.urls.length + cfg.vendors.length := by
  refine ⟨?_, processCandidates_append cm cs₁ cs₂ seen, ?_⟩
  · unfold pendingsOf
    rw [pendings_length]
    simp [candidatesOf]
  · obtain ⟨rs, hrs, hlen⟩ := resolveAll_ok oracle start cfg.timeoutMillis
      (pendingsOf cm (candidatesOf cfg)) 0
    refine ⟨rs, hrs, ?_⟩
    rw [hlen]
    unfold pendingsOf
    rw [pendings_length]
    simp [candidatesOf]

/-- C8: every transport rejection — timeout, connection error or HTTP
failure alike, the cause being discarded — resolves to a
`NETWORK_FAILURE` record stamped with the elapsed time, and the aggregate
promise of a valid config resolves for every oracle: it never rejects. -/
theorem rtc_c8_network_failure (cause : RejectCause) (now start : Nat) (t : Int)
    (callout : String) (cfg : RtcConfig) (cm : List (String × String))
    (oracle : Nat → FetchOutcome) :
    sendRtcCallout_ (FetchOutcome.rejected cause now) start t callout =
      Except.ok { callout := callout, rtcTime := now - start, rtcResponse := none,
                  error := some RTC_ERROR_ENUM.NETWORK_FAILURE } ∧
    ∃ rs, executeRtc cfg cm oracle start = Except.ok rs := by
  refine ⟨rfl, ?_⟩
  obtain ⟨rs, hrs, _⟩ := resolveAll_ok oracle start cfg.timeoutMillis
    (pendingsOf cm (candidatesOf cfg)) 0
  exact ⟨rs, hrs⟩

lemma cfg_obj_of_optTruthy {cfg : JsonValue} {k : String}
    (h : optTruthy (objGet cfg k) = true) : ∃ fs, cfg = JsonValue.obj fs := by
  cases cfg with
  | obj fs => exact ⟨fs, rfl⟩
  | null => simp [objGet, optTruthy] at h
  | bool b => simp [objGet, optTruthy] at h
  | num n => simp [objGet, optTruthy] at h
  | str s => simp [objGet, optTruthy] at h
  | arr xs => simp [objGet, optTruthy] at h

/-- C3 (amended): when validation accepts a config, the stored
`timeoutMillis` is the parsed integer exactly when that integer lies
strictly between `0` and the default, and the default in every other case
(absent, `NaN`, zero, negative, or at least the default); the timeout
warning fires exactly when the field parses to `NaN` — which includes an
absent field, since `parseInt(undefined)` is `NaN` — or parses to a value
at least the default or negative. -/
theorem rtc_c3_timeout_resolution (cfg cfgOut : JsonValue) (warned : Bool)
    (h : validateRtcConfig_ (some cfg) = (some cfgOut, warned)) :
    (∀ t : Int, jsParseInt (objGet cfg "timeoutMillis") = some t →
      0 < t → t < defaultTimeoutMillis →
      objGet cfgOut "timeoutMillis" = some (JsonValue.num t)) ∧
    (∀ t : Int, jsParseInt (objGet cfg "timeoutMillis") = some t →
      (t ≤ 0 ∨ defaultTimeoutMillis ≤ t) →
      objGet cfgOut "timeoutMillis" = some (JsonValue.num defaultTimeoutMillis)) ∧
    (jsParseInt (objGet cfg "timeoutMillis") = none →
      objGet cfgOut "timeoutMillis" = some (JsonValue.num defaultTimeoutMillis)) ∧
    (warned = true ↔ (jsParseInt (objGet cfg "timeoutMillis") = none ∨
      ∃ t, jsParseInt (objGet cfg "timeoutMillis") = some t ∧
        (defaultTimeoutMillis ≤ t ∨ t < 0))) := by
  simp only [validateRtcConfig_] at h
  split_ifs at h with h1 h2 h3 h4 h5
  · exact absurd (congrArg Prod.fst h) (by simp)
  · exact absurd (congrArg Prod.fst h) (by simp)
  · exact absurd (congrArg Prod.fst h) (by simp)
  · exact absurd (congrArg Prod.fst h) (by simp)
  · exact absurd (congrArg Prod.fst h) (by simp)
  · have hOut : cfgOut =
        setField cfg "timeoutMillis"
          (JsonValue.num (resolveTimeoutMillis (objGet cfg "timeoutMillis")).1) := by
      have hfst := congrArg Prod.fst h
      simp only [Prod.fst] at hfst
      injection hfst with hfst
      exact hfst.symm
    have hW : warned = (resolveTimeoutMillis (objGet cfg "timeoutMillis")).2 := by
      have hsnd := congrArg Prod.snd h
      simpa using hsnd.symm
    have hvu : (optTruthy (objGet cfg "vendors") || optTruthy (objGet cfg "urls")) =
        true := by
      rcases hb : optTruthy (objGet cfg "vendors") || optTruthy (objGet cfg "urls")
      · exact absurd (by rw [hb]; rfl) h2
      · rfl
    have hobj : ∃ fs, cfg = JsonValue.obj fs := by
      rcases Bool.or_eq_true_iff.1 hvu with hx | hx
      · exact cfg_obj_of_optTruthy hx
      · exact cfg_obj_of_optTruthy hx
    obtain ⟨fs, rfl⟩ := hobj
    subst hOut
    subst hW
    rw [objGet_setField_obj]
    refine ⟨?_, ?_, ?_, ?_⟩
    · intro t hpt h0 hlt
      simp only [resolveTimeoutMillis, hpt]
      rw [if_neg (by
          rw [not_or]
          exact ⟨not_le.2 hlt, not_lt.2 h0.le⟩),
        if_neg (ne_of_gt h0)]
    · intro t hpt hor
      simp only [resolveTimeoutMillis, hpt]
      by_cases hc : defaultTimeoutMillis ≤ t ∨ t < 0
      · rw [if_pos hc]
      · rw [if_neg hc]
        have ht0 : t = 0 := by
          rcases hor with hle | hge
          · rcases not_or.1 hc with ⟨_, hnneg⟩
            exact le_antisymm hle (not_lt.1 hnneg)
          · exact absurd (Or.inl hge) hc
        rw [if_pos ht0]
    · intro hpn
      simp only [resolveTimeoutMillis, hpn]
    · rcases hp : jsParseInt (objGet (JsonValue.obj fs) "timeoutMillis") with _ | t
      · simp [resolveTimeoutMillis, hp]
      · by_cases hc : defaultTimeoutMillis ≤ t ∨ t < 0
        · simp [resolveTimeoutMillis, hp, hc]
        · by_cases ht0 : t = 0
          · subst ht0
            have hnle : ¬(defaultTimeoutMillis ≤ (0 : Int)) := fun hle => hc (Or.inl hle)
            simp [resolveTimeoutMillis, hp, hnle]
          · simp [resolveTimeoutMillis, hp, hc, ht0]

/-- C3 counterexample: a valid config with no `timeoutMillis` field at all
still triggers the timeout warning (`parseInt(undefined)` is `NaN` and the
`NaN` branch warns unconditionally), contradicting the claim that the
warning fires only for a present field. -/
theorem rtc_c3_counterexample :
    objGet (JsonValue.obj [("urls", JsonValue.arr [JsonValue.str "https://a.com/"])])
      "timeoutMillis" = none ∧
    (validateRtcConfig_ (some (JsonValue.obj
      [("urls", JsonValue.arr [JsonValue.str "https://a.com/"])]))).2 = true :=
  ⟨rfl, rfl⟩

/-- C3 witness: a config carrying `timeoutMillis: 500` validates with the
override kept and no warning. -/
theorem rtc_c3_witness :
    validateRtcConfig_ (some (JsonValue.obj
      [("urls", JsonValue.arr [JsonValue.str "https://a.com/"]),
       ("timeoutMillis", JsonValue.num 500)])) =
      (some (JsonValue.obj
        [("urls", JsonValue.arr [JsonValue.str "https://a.com/"]),
         ("timeoutMillis", JsonValue.num 500)]), false) ∧
    jsParseInt (objGet (JsonValue.obj
      [("urls", JsonValue.arr [JsonValue.str "https://a.com/"]),
       ("timeoutMillis", JsonValue.num 500)]) "timeoutMillis") = some 500 ∧
    objGet (JsonValue.obj
      [("urls", JsonValue.arr [JsonValue.str "https://a.com/"]),
       ("timeoutMillis", JsonValue.num 500)]) "timeoutMillis" =
      some (JsonValue.num 500) :=
  ⟨rfl, rfl, by
    have h := (rtc_c3_timeout_resolution
      (JsonValue.obj
        [("urls", JsonValue.arr [JsonValue.str "https://a.com/"]),
         ("timeoutMillis", JsonValue.num 500)])
      (JsonValue.obj
        [("urls", JsonValue.arr [JsonValue.str "https://a.com/"]),
         ("timeoutMillis", JsonValue.num 500)])
      false rfl).1 500 rfl (by decide) (by decide)
    exact h⟩

/-- C7 (amended): validation yields `null` exactly when the attribute
fails to parse, or the parsed value has neither truthy `vendors` nor
truthy `urls`, or `vendors` is truthy but not a keyed object, or `urls` is
truthy but not an array, or the combined entry count is zero — a falsy
present field (such as `vendors: false`) passes the shape asserts as if
absent; and a `null` validation is exactly what disables RTC, the
execution returning `undefined` with no network activity. -/
theorem rtc_c7_validate_null (attr : Option JsonValue)
    (cm : List (String × String)) (oracle : Nat → FetchOutcome) (start : Nat) :
    ((validateRtcConfig_ attr).1 = none ↔ specNullCondition attr = true) ∧
    (maybeExecuteRealTimeConfig_ attr cm oracle start = none ↔
      (validateRtcConfig_ attr).1 = none) := by
  constructor
  · cases attr with
    | none => simp [validateRtcConfig_, specNullCondition]
    | some cfg =>
      by_cases hc : truthy cfg
      · simp only [validateRtcConfig_, specNullCondition, hc]
        by_cases h1 : optTruthy (objGet cfg "vendors") <;>
          by_cases h2 : optTruthy (objGet cfg "urls") <;>
          by_cases h3 : isObjectOpt (objGet cfg "vendors") <;>
          by_cases h4 : isArrayOpt (objGet cfg "urls") <;>
          by_cases h5 : vendorsKeyCount (objGet cfg "vendors") +
            urlsLength (objGet cfg "urls") = 0 <;>
          simp [h1, h2, h3, h4, h5]
      · have hv : objGet cfg "vendors" = none := by
          cases cfg <;> simp_all [truthy, objGet]
        have hu : objGet cfg "urls" = none := by
          cases cfg <;> simp_all [truthy, objGet]
        simp [validateRtcConfig_, specNullCondition, hc, hv, hu, optTruthy]
  · unfold maybeExecuteRealTimeConfig_
    rcases hv : (validateRtcConfig_ attr).1 with _ | cfgJson <;> simp [hv]

/-- C7 counterexample: the config with `vendors: false` and a non-empty
`urls` array has `vendors` present but not a keyed object, so the claim
demands `null`, yet validation accepts it — the falsy `vendors` passes the
shape asserts. -/
theorem rtc_c7_counterexample :
    hasField (JsonValue.obj
      [("vendors", JsonValue.bool false),
       ("urls", JsonValue.arr [JsonValue.str "https://a.com/"])]) "vendors" = true ∧
    isObjectOpt (objGet (JsonValue.obj
      [("vendors", JsonValue.bool false),
       ("urls", JsonValue.arr [JsonValue.str "https://a.com/"])]) "vendors") = false ∧
    ((validateRtcConfig_ (some (JsonValue.obj
      [("vendors", JsonValue.bool false),
       ("urls", JsonValue.arr [JsonValue.str "https://a.com/"])]))).1).isSome = true :=
  ⟨rfl, rfl, rfl⟩
